import Mathlib

/-
Verification development for the roster/depth-chart compilation core of the
gg-nfl-depth-charts repository.

The repository ships the documentation of its Python compilation core
(README.md, IMPLEMENTATION_SUMMARY.md, nfl-depth-charts/README.md) but the
Python sources themselves (nfl_roster_builder.py, nfl_depth_chart_compiler.py)
are not part of the delivered source tree.  The pipeline definitions below are
therefore modelled from the specification, staying as close as possible to the
names and algorithms the in-repo documentation records (ESPN_TEAMS,
merge_roster, position groups, validation report shape, retry with exponential
backoff).  The AutomationService.updateKPI embedding at the end of the file is
translated directly from the TypeScript source that is present.
-/

namespace NFLRoster

/-- Which of the two data feeds produced a record: the Primary source is the
scraped depth chart, the Secondary source is the roster API. -/
inductive SourceKind where
  | primary
  | secondary
deriving DecidableEq, Repr

/-- Enumerated injury designation carried by a player record. -/
inductive InjuryStatus where
  | active
  | questionable
  | out
  | doubtful
  | injuredReserve
deriving DecidableEq, Repr

/-- Coarse classification bucket for a role: Offense / Defense / Special
Teams, with a sentinel Unknown for unmapped roles. -/
inductive RoleGroup where
  | offense
  | defense
  | specialTeams
  | unknown
deriving DecidableEq, Repr

/-- Modelled from the spec: the PlayerRecord unit entity of the data model
(section 3 of the spec); the Python dataclass PlayerRecord is not in the
delivered sources.  Timestamps are modelled as naturals. -/
structure PlayerRecord where
  name : String
  organizationCode : String
  role : String
  roleGroup : RoleGroup
  depthOrder : Option String
  injuryStatus : InjuryStatus
  jerseyNumber : Option String
  sourceKind : SourceKind
  observedAt : Nat
deriving DecidableEq, Repr

/-- Modelled from the spec: one EntityCatalog entry
(code, internalId, displayName, minExpected, maxExpected). -/
structure OrgEntry where
  code : String
  internalId : String
  displayName : String
  minExpected : Nat
  maxExpected : Nat
deriving DecidableEq, Repr

/-- Modelled from the spec: the static EntityCatalog of 32 organizations; the
documentation records it as the ESPN_TEAMS dictionary mapping each team to its
ESPN abbreviation, team id and full name, with a 53..90 expected-population
range per team. -/
def ESPN_TEAMS : List OrgEntry :=
  [ { code := "ARI", internalId := "22", displayName := "Arizona Cardinals", minExpected := 53, maxExpected := 90 },
    { code := "ATL", internalId := "1", displayName := "Atlanta Falcons", minExpected := 53, maxExpected := 90 },
    { code := "BAL", internalId := "33", displayName := "Baltimore Ravens", minExpected := 53, maxExpected := 90 },
    { code := "BUF", internalId := "2", displayName := "Buffalo Bills", minExpected := 53, maxExpected := 90 },
    { code := "CAR", internalId := "29", displayName := "Carolina Panthers", minExpected := 53, maxExpected := 90 },
    { code := "CHI", internalId := "3", displayName := "Chicago Bears", minExpected := 53, maxExpected := 90 },
    { code := "CIN", internalId := "4", displayName := "Cincinnati Bengals", minExpected := 53, maxExpected := 90 },
    { code := "CLE", internalId := "5", displayName := "Cleveland Browns", minExpected := 53, maxExpected := 90 },
    { code := "DAL", internalId := "6", displayName := "Dallas Cowboys", minExpected := 53, maxExpected := 90 },
    { code := "DEN", internalId := "7", displayName := "Denver Broncos", minExpected := 53, maxExpected := 90 },
    { code := "DET", internalId := "8", displayName := "Detroit Lions", minExpected := 53, maxExpected := 90 },
    { code := "GB", internalId := "9", displayName := "Green Bay Packers", minExpected := 53, maxExpected := 90 },
    { code := "HOU", internalId := "34", displayName := "Houston Texans", minExpected := 53, maxExpected := 90 },
    { code := "IND", internalId := "11", displayName := "Indianapolis Colts", minExpected := 53, maxExpected := 90 },
    { code := "JAX", internalId := "30", displayName := "Jacksonville Jaguars", minExpected := 53, maxExpected := 90 },
    { code := "KC", internalId := "12", displayName := "Kansas City Chiefs", minExpected := 53, maxExpected := 90 },
    { code := "LAC", internalId := "24", displayName := "Los Angeles Chargers", minExpected := 53, maxExpected := 90 },
    { code := "LAR", internalId := "14", displayName := "Los Angeles Rams", minExpected := 53, maxExpected := 90 },
    { code := "LV", internalId := "13", displayName := "Las Vegas Raiders", minExpected := 53, maxExpected := 90 },
    { code := "MIA", internalId := "15", displayName := "Miami Dolphins", minExpected := 53, maxExpected := 90 },
    { code := "MIN", internalId := "16", displayName := "Minnesota Vikings", minExpected := 53, maxExpected := 90 },
    { code := "NE", internalId := "17", displayName := "New England Patriots", minExpected := 53, maxExpected := 90 },
    { code := "NO", internalId := "18", displayName := "New Orleans Saints", minExpected := 53, maxExpected := 90 },
    { code := "NYG", internalId := "19", displayName := "New York Giants", minExpected := 53, maxExpected := 90 },
    { code := "NYJ", internalId := "20", displayName := "New York Jets", minExpected := 53, maxExpected := 90 },
    { code := "PHI", internalId := "21", displayName := "Philadelphia Eagles", minExpected := 53, maxExpected := 90 },
    { code := "PIT", internalId := "23", displayName := "Pittsburgh Steelers", minExpected := 53, maxExpected := 90 },
    { code := "SEA", internalId := "26", displayName := "Seattle Seahawks", minExpected := 53, maxExpected := 90 },
    { code := "SF", internalId := "25", displayName := "San Francisco 49ers", minExpected := 53, maxExpected := 90 },
    { code := "TB", internalId := "27", displayName := "Tampa Bay Buccaneers", minExpected := 53, maxExpected := 90 },
    { code := "TEN", internalId := "10", displayName := "Tennessee Titans", minExpected := 53, maxExpected := 90 },
    { code := "WSH", internalId := "28", displayName := "Washington Commanders", minExpected := 53, maxExpected := 90 } ]

/-- Modelled from the spec: the static role-to-group lookup table; the
documentation lists exactly these position codes for
Offense / Defense / Special Teams. -/
def POSITION_GROUPS : List (String × RoleGroup) :=
  [ ("QB", .offense), ("RB", .offense), ("FB", .offense), ("WR", .offense),
    ("TE", .offense), ("LT", .offense), ("LG", .offense), ("C", .offense),
    ("RG", .offense), ("RT", .offense), ("OL", .offense), ("OT", .offense),
    ("G", .offense),
    ("DE", .defense), ("DT", .defense), ("NT", .defense), ("LB", .defense),
    ("OLB", .defense), ("MLB", .defense), ("ILB", .defense), ("CB", .defense),
    ("S", .defense), ("FS", .defense), ("SS", .defense), ("DB", .defense),
    ("K", .specialTeams), ("P", .specialTeams), ("LS", .specialTeams),
    ("PR", .specialTeams), ("KR", .specialTeams) ]

/-- Modelled from the spec: roleGroup as a pure function of the raw role
string, with unmapped roles sent to the Unknown sentinel, never dropped. -/
def position_group (role : String) : RoleGroup :=
  (POSITION_GROUPS.lookup role).getD RoleGroup.unknown

/-- Modelled from the spec: the fixed ordered set of known trailing injury
tokens and the status each one denotes. -/
def INJURY_STATUS_MAP : List (String × InjuryStatus) :=
  [ ("Q", .questionable), ("O", .out), ("D", .doubtful), ("IR", .injuredReserve) ]

/-- Look one token up in the known injury token set. -/
def parseInjuryToken (tok : String) : Option InjuryStatus :=
  INJURY_STATUS_MAP.lookup tok

/-- Split a list of characters at every space, keeping empty pieces, the same
way splitting a string on a single-space separator does. -/
def splitSpacesAux : List Char → List Char → List (List Char)
  | [], cur => [cur.reverse]
  | c :: rest, cur =>
    if c = ' ' then cur.reverse :: splitSpacesAux rest []
    else splitSpacesAux rest (c :: cur)

/-- The space-separated words of a string (kernel-computable splitting). -/
def wordsOf (s : String) : List String :=
  (splitSpacesAux s.data []).map (fun cs => ⟨cs⟩)

/-- Modelled from the spec: name/injury parsing of one raw text fragment.
When the trailing word is a known injury token it is split off the name and
mapped to its status; otherwise the entire fragment is the name and the
status defaults to Active. -/
def parse_player_text (fragment : String) : String × InjuryStatus :=
  let ws := wordsOf fragment
  match parseInjuryToken (ws.getLastD "") with
  | some st => (String.intercalate " " ws.dropLast, st)
  | none => (fragment, InjuryStatus.active)

/-- Ordinal rendering of a structural depth position, 1st through 4th as in
the documentation, with a numeric fallback beyond that. -/
def depthOrderName (n : Nat) : String :=
  match n with
  | 1 => "1st"
  | 2 => "2nd"
  | 3 => "3rd"
  | 4 => "4th"
  | _ => toString n ++ "th"

/-- Modelled from the spec: one raw source entry before normalization - a
role label, an optional structural depth position, a name-plus-status text
fragment and an optional jersey number. -/
structure RawEntry where
  roleLabel : String
  depthPos : Option Nat
  fragment : String
  jersey : Option String
deriving DecidableEq, Repr

/-- Modelled from the spec: normalization of one raw entry into a
PlayerRecord.  Depth order is derived only for the Primary source; the jersey
number is carried only by the Secondary source. -/
def normalizeEntry (org : OrgEntry) (sk : SourceKind) (t : Nat) (e : RawEntry) : PlayerRecord :=
  let parsed := parse_player_text e.fragment
  { name := parsed.1
    organizationCode := org.code
    role := e.roleLabel
    roleGroup := position_group e.roleLabel
    depthOrder :=
      match sk, e.depthPos with
      | SourceKind.primary, some n => some (depthOrderName n)
      | _, _ => none
    injuryStatus := parsed.2
    jerseyNumber :=
      match sk with
      | SourceKind.secondary => e.jersey
      | SourceKind.primary => none
    sourceKind := sk
    observedAt := t }

/-- Modelled from the spec: normalize turns one raw payload into the sequence
of normalized player records. -/
def normalize (payload : List RawEntry) (org : OrgEntry) (sk : SourceKind) (t : Nat) :
    List PlayerRecord :=
  payload.map (normalizeEntry org sk t)

/-- Identity key of a record: (name, organizationCode, role) is the
deduplication key of the whole pipeline. -/
def identityKey (r : PlayerRecord) : String × String × String :=
  (r.name, r.organizationCode, r.role)

/-- The identity keys of a record list, in order. -/
def keysOf (l : List PlayerRecord) : List (String × String × String) :=
  l.map identityKey

/-- Insert one record into the keyed result set: the record is added only if
its identity key is not already present. -/
def insertKeyed (acc : List PlayerRecord) (r : PlayerRecord) : List PlayerRecord :=
  if identityKey r ∈ keysOf acc then acc else acc ++ [r]

/-- Sequential keyed insertion of a whole list, keeping for every identity key
the first record that carries it. -/
def dedupInsert (l : List PlayerRecord) : List PlayerRecord :=
  l.foldl insertKeyed []

/-- Merge statistics reported alongside the merged record set. -/
structure MergeStats where
  primaryCount : Nat
  secondaryCount : Nat
  mergedCount : Nat
  duplicatesDropped : Nat
deriving DecidableEq, Repr

/-- Modelled from the spec: merge_roster inserts every Primary record into the
result set keyed by identity key, then inserts each Secondary record only if
its key is not already present, and reports the counts.  Primary records are
processed first, so Primary always wins a key tie. -/
def merge_roster (primaryRecords secondaryRecords : List PlayerRecord) :
    List PlayerRecord × MergeStats :=
  let merged := dedupInsert (primaryRecords ++ secondaryRecords)
  (merged,
    { primaryCount := primaryRecords.length
      secondaryCount := secondaryRecords.length
      mergedCount := merged.length
      duplicatesDropped := primaryRecords.length + secondaryRecords.length - merged.length })

/-- First record carrying a given identity key, if any. -/
def findByKey (k : String × String × String) (l : List PlayerRecord) :
    Option PlayerRecord :=
  l.find? (fun r => decide (identityKey r = k))

lemma insertKeyed_of_mem {acc : List PlayerRecord} {x : PlayerRecord}
    (h : identityKey x ∈ keysOf acc) : insertKeyed acc x = acc := by
  simp [insertKeyed, h]

lemma insertKeyed_of_not_mem {acc : List PlayerRecord} {x : PlayerRecord}
    (h : identityKey x ∉ keysOf acc) : insertKeyed acc x = acc ++ [x] := by
  simp [insertKeyed, h]

lemma foldl_insertKeyed_shape (l : List PlayerRecord) :
    ∀ acc : List PlayerRecord,
      ∃ t, List.foldl insertKeyed acc l = acc ++ t ∧ List.Sublist t l := by
  induction l with
  | nil => intro acc; exact ⟨[], by simp, List.Sublist.refl _⟩
  | cons x l ih =>
    intro acc
    rw [List.foldl_cons]
    by_cases hx : identityKey x ∈ keysOf acc
    · rw [insertKeyed_of_mem hx]
      obtain ⟨t, ht, hs⟩ := ih acc
      exact ⟨t, ht, hs.cons x⟩
    · rw [insertKeyed_of_not_mem hx]
      obtain ⟨t, ht, hs⟩ := ih (acc ++ [x])
      exact ⟨x :: t, by simpa using ht, hs.cons₂ x⟩

lemma dedupInsert_sublist (l : List PlayerRecord) :
    List.Sublist (dedupInsert l) l := by
  obtain ⟨t, ht, hs⟩ := foldl_insertKeyed_shape l []
  simpa [dedupInsert, ht] using hs

lemma length_dedupInsert_le (l : List PlayerRecord) :
    (dedupInsert l).length ≤ l.length :=
  (dedupInsert_sublist l).length_le

lemma mem_of_mem_dedupInsert {r : PlayerRecord} {l : List PlayerRecord}
    (h : r ∈ dedupInsert l) : r ∈ l :=
  (dedupInsert_sublist l).subset h

lemma keysOf_append (l₁ l₂ : List PlayerRecord) :
    keysOf (l₁ ++ l₂) = keysOf l₁ ++ keysOf l₂ := by
  simp [keysOf]

lemma foldl_insertKeyed_keys_nodup (l : List PlayerRecord) :
    ∀ acc : List PlayerRecord, (keysOf acc).Nodup →
      (keysOf (List.foldl insertKeyed acc l)).Nodup := by
  induction l with
  | nil => intro acc h; simpa using h
  | cons x l ih =>
    intro acc h
    rw [List.foldl_cons]
    by_cases hx : identityKey x ∈ keysOf acc
    · rw [insertKeyed_of_mem hx]; exact ih acc h
    · rw [insertKeyed_of_not_mem hx]
      refine ih (acc ++ [x]) ?_
      rw [keysOf_append]
      refine List.Nodup.append h ?_ ?_
      · simp [keysOf]
      · intro a ha hb
        simp only [keysOf, List.map_cons, List.map_nil, List.mem_singleton] at hb
        exact hx (hb ▸ ha)

lemma dedupInsert_keys_nodup (l : List PlayerRecord) :
    (keysOf (dedupInsert l)).Nodup :=
  foldl_insertKeyed_keys_nodup l [] (by simp [keysOf])

lemma foldl_insertKeyed_of_nodup (l : List PlayerRecord) :
    ∀ acc : List PlayerRecord,
      (∀ k, k ∈ keysOf l → k ∉ keysOf acc) → (keysOf l).Nodup →
      List.foldl insertKeyed acc l = acc ++ l := by
  induction l with
  | nil => intro acc _ _; simp
  | cons x l ih =>
    intro acc hdisj hnd
    rw [List.foldl_cons]
    have hx : identityKey x ∉ keysOf acc :=
      hdisj _ (by simp [keysOf])
    rw [insertKeyed_of_not_mem hx]
    have hnd' : (keysOf l).Nodup := by
      simpa [keysOf] using hnd.of_cons
    have hxl : identityKey x ∉ keysOf l := by
      have := hnd
      simp only [keysOf, List.map_cons] at this
      exact this.not_mem
    have hdisj' : ∀ k, k ∈ keysOf l → k ∉ keysOf (acc ++ [x]) := by
      intro k hk
      rw [keysOf_append]
      intro hmem
      rcases List.mem_append.mp hmem with h1 | h2
      · have hkcons : k ∈ keysOf (x :: l) := by
          simp only [keysOf, List.map_cons, List.mem_cons]
          exact Or.inr (by simpa [keysOf] using hk)
        exact hdisj k hkcons h1
      · simp only [keysOf, List.map_cons, List.map_nil, List.mem_singleton] at h2
        exact hxl (h2 ▸ hk)
    rw [ih (acc ++ [x]) hdisj' hnd']
    simp

lemma dedupInsert_of_keys_nodup {l : List PlayerRecord}
    (h : (keysOf l).Nodup) : dedupInsert l = l := by
  have := foldl_insertKeyed_of_nodup l [] (by simp [keysOf]) h
  simpa [dedupInsert] using this

lemma length_dedupInsert_eq_iff (l : List PlayerRecord) :
    (dedupInsert l).length = l.length ↔ (keysOf l).Nodup := by
  constructor
  · intro h
    have heq : dedupInsert l = l :=
      List.Sublist.eq_of_length (dedupInsert_sublist l) h
    have := dedupInsert_keys_nodup l
    rwa [heq] at this
  · intro h
    rw [dedupInsert_of_keys_nodup h]

lemma mem_keysOf_iff {k : String × String × String} {l : List PlayerRecord} :
    k ∈ keysOf l ↔ ∃ r ∈ l, identityKey r = k := by
  simp [keysOf]

lemma findByKey_isSome_of_mem_keys {k : String × String × String}
    {l : List PlayerRecord} (h : k ∈ keysOf l) :
    ∃ r, findByKey k l = some r ∧ r ∈ l ∧ identityKey r = k := by
  cases hf : findByKey k l with
  | none =>
    exfalso
    obtain ⟨r, hr, hk⟩ := mem_keysOf_iff.mp h
    have := List.find?_eq_none.mp hf r hr
    simp [hk] at this
  | some r =>
    refine ⟨r, rfl, List.mem_of_find?_eq_some hf, ?_⟩
    have := List.find?_some hf
    simpa using this

lemma findByKey_append (k : String × String × String) (l₁ l₂ : List PlayerRecord) :
    findByKey k (l₁ ++ l₂) = Option.or (findByKey k l₁) (findByKey k l₂) := by
  simp [findByKey, List.find?_append]

lemma findByKey_foldl_insertKeyed (k : String × String × String)
    (l : List PlayerRecord) :
    ∀ acc : List PlayerRecord,
      findByKey k (List.foldl insertKeyed acc l) =
        Option.or (findByKey k acc) (findByKey k l) := by
  induction l with
  | nil => intro acc; simp [findByKey]
  | cons x l ih =>
    intro acc
    rw [List.foldl_cons]
    by_cases hx : identityKey x ∈ keysOf acc
    · rw [insertKeyed_of_mem hx, ih acc]
      by_cases hk : identityKey x = k
      · obtain ⟨r, hr, _, _⟩ := findByKey_isSome_of_mem_keys (hk ▸ hx)
        simp [hr]
      · have hcons : findByKey k (x :: l) = findByKey k l := by
          simp [findByKey, List.find?_cons, hk]
        rw [hcons]
    · rw [insertKeyed_of_not_mem hx, ih (acc ++ [x]), findByKey_append]
      rw [Option.or_assoc]
      congr 1
      have hsplit : findByKey k (x :: l) = Option.or (findByKey k [x]) (findByKey k l) := by
        simpa using findByKey_append k [x] l
      rw [hsplit]

lemma findByKey_dedupInsert (k : String × String × String) (l : List PlayerRecord) :
    findByKey k (dedupInsert l) = findByKey k l := by
  have := findByKey_foldl_insertKeyed k l []
  simpa [dedupInsert, findByKey] using this

/-- Modelled from the spec: the retry configuration surface
(maxRetries, default 3; baseDelayMs, default 1000). -/
structure RetryConfig where
  maxRetries : Nat
  baseDelayMs : Nat
deriving DecidableEq, Repr

/-- Default retry configuration recorded by the documentation. -/
def defaultRetryConfig : RetryConfig :=
  { maxRetries := 3, baseDelayMs := 1000 }

/-- Outcome of one fetch with retry: either a payload with the number of the
succeeding attempt, or a terminal failure after the last attempt; both carry
the list of backoff waits that were performed between attempts. -/
inductive FetchResult (α : Type) where
  | success (value : α) (attemptsUsed : Nat) (waits : List Nat)
  | failure (attemptsUsed : Nat) (waits : List Nat)
deriving DecidableEq, Repr

/-- Number of attempts the fetch made. -/
def FetchResult.attemptsUsed {α : Type} : FetchResult α → Nat
  | .success _ k _ => k
  | .failure k _ => k

/-- The backoff waits performed between attempts, in order. -/
def FetchResult.waits {α : Type} : FetchResult α → List Nat
  | .success _ _ w => w
  | .failure _ w => w

/-- Modelled from the spec: the retry state machine Attempting(n) to Success,
or Waiting(baseDelay * 2 ^ (n-1)) to Attempting(n+1), or Exhausted.  The
attempt outcomes are abstracted as a function from the 1-based attempt number
to an optional payload; the second argument counts the remaining attempt
budget. -/
def fetchAttempts {α : Type} (attemptOutcome : Nat → Option α) (baseDelay : Nat) :
    Nat → Nat → FetchResult α
  | attempt, 0 => .failure (attempt - 1) []
  | attempt, remaining + 1 =>
    match attemptOutcome attempt with
    | some v => .success v attempt []
    | none =>
      if remaining = 0 then .failure attempt []
      else
        match fetchAttempts attemptOutcome baseDelay (attempt + 1) remaining with
        | .success v k ws => .success v k (baseDelay * 2 ^ (attempt - 1) :: ws)
        | .failure k ws => .failure k (baseDelay * 2 ^ (attempt - 1) :: ws)

/-- Modelled from the spec: fetch for one (organization, sourceKind) pair -
up to maxRetries attempts starting at attempt 1, exponential backoff between
attempts, terminal FetchFailure once the budget is exhausted. -/
def fetchWithRetry {α : Type} (cfg : RetryConfig) (attemptOutcome : Nat → Option α) :
    FetchResult α :=
  fetchAttempts attemptOutcome cfg.baseDelayMs 1 cfg.maxRetries

lemma fetchAttempts_spec {α : Type} (ar : Nat → Option α) (bd : Nat) :
    ∀ remaining attempt, 1 ≤ attempt →
      (attempt - 1 ≤ (fetchAttempts ar bd attempt remaining).attemptsUsed) ∧
      ((fetchAttempts ar bd attempt remaining).attemptsUsed ≤ attempt - 1 + remaining) ∧
      (1 ≤ remaining → attempt ≤ (fetchAttempts ar bd attempt remaining).attemptsUsed) ∧
      (fetchAttempts ar bd attempt remaining).waits =
        (List.range' (attempt - 1)
          ((fetchAttempts ar bd attempt remaining).attemptsUsed - attempt)).map
          (fun i => bd * 2 ^ i) := by
  intro remaining
  induction remaining with
  | zero =>
    intro attempt _
    simp only [fetchAttempts, FetchResult.attemptsUsed, FetchResult.waits]
    refine ⟨le_rfl, by omega, by omega, by simp⟩
  | succ rem ih =>
    intro attempt hatt
    rw [fetchAttempts]
    cases har : ar attempt with
    | some v =>
      simp only [FetchResult.attemptsUsed, FetchResult.waits]
      refine ⟨by omega, by omega, fun _ => le_rfl, by simp⟩
    | none =>
      by_cases hrem : rem = 0
      · subst hrem
        rw [if_pos rfl]
        simp only [FetchResult.attemptsUsed, FetchResult.waits]
        refine ⟨by omega, by omega, fun _ => le_rfl, by simp⟩
      · rw [if_neg hrem]
        obtain ⟨h1, h2, h3, h4⟩ := ih (attempt + 1) (by omega)
        have hge : attempt + 1 ≤ (fetchAttempts ar bd (attempt + 1) rem).attemptsUsed :=
          h3 (by omega)
        cases hres : fetchAttempts ar bd (attempt + 1) rem with
        | success v k ws =>
          simp only [hres, FetchResult.attemptsUsed, FetchResult.waits] at h1 h2 h4 hge ⊢
          refine ⟨by omega, by omega, fun _ => by omega, ?_⟩
          have hk : k - attempt = (k - (attempt + 1)) + 1 := by omega
          rw [hk, List.range'_succ, List.map_cons]
          have hstart : attempt - 1 + 1 = attempt + 1 - 1 := by omega
          rw [h4, hstart]
        | failure k ws =>
          simp only [hres, FetchResult.attemptsUsed, FetchResult.waits] at h1 h2 h4 hge ⊢
          refine ⟨by omega, by omega, fun _ => by omega, ?_⟩
          have hk : k - attempt = (k - (attempt + 1)) + 1 := by omega
          rw [hk, List.range'_succ, List.map_cons]
          have hstart : attempt - 1 + 1 = attempt + 1 - 1 := by omega
          rw [h4, hstart]

lemma fetchAttempts_all_fail {α : Type} (ar : Nat → Option α) (bd : Nat)
    (hfail : ∀ n, ar n = none) :
    ∀ remaining attempt, 1 ≤ attempt →
      fetchAttempts ar bd attempt remaining =
        FetchResult.failure (attempt - 1 + remaining)
          ((List.range' (attempt - 1) (remaining - 1)).map (fun i => bd * 2 ^ i)) := by
  intro remaining
  induction remaining with
  | zero => intro attempt _; simp [fetchAttempts]
  | succ rem ih =>
    intro attempt hatt
    rw [fetchAttempts, hfail attempt]
    by_cases hrem : rem = 0
    · subst hrem
      rw [if_pos rfl]
      have h1 : attempt - 1 + 1 = attempt := by omega
      simp [h1]
    · rw [if_neg hrem, ih (attempt + 1) (by omega)]
      simp only
      congr 1
      · omega
      · have h1 : rem + 1 - 1 = (rem - 1) + 1 := by omega
        have h2 : attempt + 1 - 1 = attempt - 1 + 1 := by omega
        rw [h1, List.range'_succ, List.map_cons, h2]

/-- Modelled from the spec: per-organization processing step - normalize the
Primary payload, normalize the Secondary payload, and merge them with Primary
priority.  The two payload providers abstract the already-fetched raw source
documents. -/
def process_team (fetchPrimary fetchSecondary : OrgEntry → List RawEntry) (t : Nat)
    (org : OrgEntry) : List PlayerRecord × MergeStats :=
  merge_roster
    (normalize (fetchPrimary org) org SourceKind.primary t)
    (normalize (fetchSecondary org) org SourceKind.secondary t)

/-- Modelled from the spec: the full compilation run processes every catalog
organization in order, producing the per-organization merged sets. -/
def compile_all_teams (fetchPrimary fetchSecondary : OrgEntry → List RawEntry) (t : Nat) :
    List (String × (List PlayerRecord × MergeStats)) :=
  ESPN_TEAMS.map (fun org => (org.code, process_team fetchPrimary fetchSecondary t org))

/-- Modelled from the spec: the whole-population accumulation set - the
per-organization merged record sets appended in catalog order. -/
def runRecords (fetchPrimary fetchSecondary : OrgEntry → List RawEntry) (t : Nat) :
    List PlayerRecord :=
  ESPN_TEAMS.foldl
    (fun acc org => acc ++ (process_team fetchPrimary fetchSecondary t org).1) []

/-- Modelled from the spec: the structured ValidationReport. -/
structure ValidationReport where
  totalPlayers : Nat
  uniquePlayers : Nat
  organizationsProcessed : Nat
  organizationsFailed : Nat
  expectedTotal : Nat
  meetsExpectation : Bool
  byOrganization : List (String × Nat)
  byRoleGroup : List (RoleGroup × Nat)
  warnings : List String
  errors : List String
deriving DecidableEq, Repr

/-- Number of records belonging to one organization code. -/
def org_count (records : List PlayerRecord) (code : String) : Nat :=
  (records.filter (fun r => decide (r.organizationCode = code))).length

/-- The catalog organizations that appear in no record of the dataset. -/
def missing_orgs (records : List PlayerRecord) : List OrgEntry :=
  ESPN_TEAMS.filter (fun org => decide (org_count records org.code = 0))

/-- The error string the validator emits for an absent organization. -/
def missing_org_error (code : String) : String :=
  "Missing organization: " ++ code

/-- Modelled from the spec: validate_data checks the merged whole-population
dataset - an error for every catalog organization with no record (and for a
wholly empty dataset), warnings for counts outside the expected bands, and
the aggregate counts for observability. -/
def validate_data (records : List PlayerRecord) (expectedTotal tolerance : Nat) :
    ValidationReport :=
  let missing := missing_orgs records
  let errors :=
    (if records.length = 0 then ["No records collected"] else []) ++
      missing.map (fun org => missing_org_error org.code)
  let totalOk : Bool :=
    decide (expectedTotal - tolerance ≤ records.length) &&
      decide (records.length ≤ expectedTotal + tolerance)
  let warnings :=
    (if totalOk then [] else ["Total player count outside expected range"]) ++
      (ESPN_TEAMS.filter (fun org =>
        decide (org_count records org.code < org.minExpected) ||
          decide (org.maxExpected < org_count records org.code))).map
        (fun org => "Organization count outside expected range: " ++ org.code)
  { totalPlayers := records.length
    uniquePlayers := (dedupInsert records).length
    organizationsProcessed := ESPN_TEAMS.length - missing.length
    organizationsFailed := missing.length
    expectedTotal := expectedTotal
    meetsExpectation := totalOk && errors.isEmpty
    byOrganization := ESPN_TEAMS.map (fun org => (org.code, org_count records org.code))
    byRoleGroup :=
      [RoleGroup.offense, RoleGroup.defense, RoleGroup.specialTeams, RoleGroup.unknown].map
        (fun g => (g, (records.filter (fun r => decide (r.roleGroup = g))).length))
    warnings := warnings
    errors := errors }

/-- Readable name of a role group, as it appears in the exported table. -/
def roleGroupName : RoleGroup → String
  | .offense => "Offense"
  | .defense => "Defense"
  | .specialTeams => "Special Teams"
  | .unknown => "Unknown"

/-- Readable name of an injury status. -/
def injuryStatusName : InjuryStatus → String
  | .active => "Active"
  | .questionable => "Q"
  | .out => "O"
  | .doubtful => "D"
  | .injuredReserve => "IR"

/-- Readable name of a source kind. -/
def sourceKindName : SourceKind → String
  | .primary => "ESPN Depth Chart"
  | .secondary => "ESPN Roster API"

/-- Lexicographic sort key of the CSV export:
(organizationCode, roleGroup, role, name). -/
def csvKey (r : PlayerRecord) : Lex (String × Lex (String × Lex (String × String))) :=
  toLex (r.organizationCode, toLex (roleGroupName r.roleGroup, toLex (r.role, r.name)))

/-- Row order of the CSV export: comparison of the lexicographic keys. -/
def csvLE (a b : PlayerRecord) : Prop :=
  csvKey a ≤ csvKey b

instance : DecidableRel csvLE :=
  fun a b => inferInstanceAs (Decidable (csvKey a ≤ csvKey b))

instance : IsTotal PlayerRecord csvLE :=
  ⟨fun a b => le_total (csvKey a) (csvKey b)⟩

instance : IsTrans PlayerRecord csvLE :=
  ⟨fun _ _ _ h1 h2 => le_trans h1 h2⟩

/-- One flattened CSV row of a record. -/
def csvRow (r : PlayerRecord) : List String :=
  [r.name, r.organizationCode, r.role, roleGroupName r.roleGroup,
    r.depthOrder.getD "", injuryStatusName r.injuryStatus,
    r.jerseyNumber.getD "", sourceKindName r.sourceKind]

/-- Modelled from the spec: the CSV export - the flattened record table in the
deterministic (organizationCode, roleGroup, role, name) sort order. -/
def save_to_csv (records : List PlayerRecord) : List (List String) :=
  (List.insertionSort csvLE records).map csvRow

/-- JavaScript exception value as the TypeScript service observes it: either
a ZodError (carrying its validation issues) or a plain Error with a
message. -/
inductive JsError where
  | zodError (info : String)
  | error (message : String)
deriving DecidableEq, Repr

/-- Message of a JavaScript exception. -/
def JsError.message : JsError → String
  | .zodError info => info
  | .error m => m

/-- Body of the try block of AutomationService.updateKPI
(guerillagenics-automation-backend service): parse the input with the Zod
schema, run findByIdAndUpdate, and throw Error KPI-not-found when the lookup
returns null.  The schema parse and the database call are abstracted as the
two arguments; each can throw (Except.error). -/
def updateKPI_tryBlock {α κ : Type} (parseResult : Except JsError α)
    (findByIdAndUpdate : α → Except JsError (Option κ)) : Except JsError κ :=
  match parseResult with
  | .error e => .error e
  | .ok validatedData =>
    match findByIdAndUpdate validatedData with
    | .error e => .error e
    | .ok none => .error (JsError.error "KPI not found")
    | .ok (some updatedKPI) => .ok updatedKPI

/-- AutomationService.updateKPI, translated from the TypeScript source: the
try block above wrapped in the catch block that rethrows a ZodError as
Validation Error and every other exception as Error updating KPI. -/
def updateKPI {α κ : Type} (parseResult : Except JsError α)
    (findByIdAndUpdate : α → Except JsError (Option κ)) : Except JsError κ :=
  match updateKPI_tryBlock parseResult findByIdAndUpdate with
  | .ok k => .ok k
  | .error (JsError.zodError info) =>
    .error (JsError.error ("Validation Error: " ++ info))
  | .error (JsError.error _) => .error (JsError.error "Error updating KPI")

/-- Sample Primary-source record used by the concrete witnesses below. -/
def primarySample : PlayerRecord :=
  { name := "John Smith"
    organizationCode := "BUF"
    role := "QB"
    roleGroup := RoleGroup.offense
    depthOrder := some "1st"
    injuryStatus := InjuryStatus.questionable
    jerseyNumber := none
    sourceKind := SourceKind.primary
    observedAt := 7 }

/-- Sample Secondary-source record with the same identity key as
primarySample but different remaining fields. -/
def secondarySample : PlayerRecord :=
  { name := "John Smith"
    organizationCode := "BUF"
    role := "QB"
    roleGroup := RoleGroup.offense
    depthOrder := none
    injuryStatus := InjuryStatus.active
    jerseyNumber := some "17"
    sourceKind := SourceKind.secondary
    observedAt := 9 }

/-- Claim C1: for every identity key occurring in both inputs, the record the
merge stores under that key is field-for-field a Primary record (the first
Primary record carrying the key), never the Secondary record: looking the key
up in the merged set gives exactly what looking it up in the Primary input
gives. -/
theorem merge_priority_primary_wins
    (primaryRecords secondaryRecords : List PlayerRecord)
    (k : String × String × String)
    (hp : k ∈ keysOf primaryRecords) (_hs : k ∈ keysOf secondaryRecords) :
    ∃ r, findByKey k (merge_roster primaryRecords secondaryRecords).1 = some r ∧
      r ∈ primaryRecords ∧ identityKey r = k ∧
      findByKey k (merge_roster primaryRecords secondaryRecords).1 =
        findByKey k primaryRecords := by
  obtain ⟨r, hr, hmem, hkey⟩ := findByKey_isSome_of_mem_keys hp
  have hmain : findByKey k (merge_roster primaryRecords secondaryRecords).1 = some r := by
    have h1 : (merge_roster primaryRecords secondaryRecords).1 =
        dedupInsert (primaryRecords ++ secondaryRecords) := rfl
    rw [h1, findByKey_dedupInsert, findByKey_append, hr]
    rfl
  exact ⟨r, hmain, hmem, hkey, by rw [hmain, hr]⟩

/-- Witness for C1: merging the two sample records, whose identity keys
collide, stores the Primary record under the shared key. -/
theorem merge_priority_primary_wins_witness :
    findByKey (identityKey primarySample)
      (merge_roster [primarySample] [secondarySample]).1 = some primarySample := by
  obtain ⟨r, hr, hmem, -, -⟩ :=
    merge_priority_primary_wins [primarySample] [secondarySample]
      (identityKey primarySample) (by decide) (by decide)
  rw [List.mem_singleton.mp hmem] at hr
  exact hr

/-- Claim C2 (amended): mergedCount never exceeds primaryCount +
secondaryCount, mergedCount + duplicatesDropped recovers the sum exactly, and
equality holds exactly when no identity key occurs twice across the
concatenated inputs (so in particular both cross-source collisions and
duplicate keys inside a single input break equality). -/
theorem merge_count_law (primaryRecords secondaryRecords : List PlayerRecord) :
    (merge_roster primaryRecords secondaryRecords).2.mergedCount ≤
      (merge_roster primaryRecords secondaryRecords).2.primaryCount +
        (merge_roster primaryRecords secondaryRecords).2.secondaryCount ∧
    (merge_roster primaryRecords secondaryRecords).2.mergedCount +
        (merge_roster primaryRecords secondaryRecords).2.duplicatesDropped =
      (merge_roster primaryRecords secondaryRecords).2.primaryCount +
        (merge_roster primaryRecords secondaryRecords).2.secondaryCount ∧
    ((merge_roster primaryRecords secondaryRecords).2.mergedCount =
        (merge_roster primaryRecords secondaryRecords).2.primaryCount +
          (merge_roster primaryRecords secondaryRecords).2.secondaryCount ↔
      (keysOf (primaryRecords ++ secondaryRecords)).Nodup) := by
  have hle : (dedupInsert (primaryRecords ++ secondaryRecords)).length ≤
      primaryRecords.length + secondaryRecords.length := by
    have h := length_dedupInsert_le (primaryRecords ++ secondaryRecords)
    simpa using h
  refine ⟨hle, ?_, ?_⟩
  · show (dedupInsert (primaryRecords ++ secondaryRecords)).length +
        (primaryRecords.length + secondaryRecords.length -
          (dedupInsert (primaryRecords ++ secondaryRecords)).length) =
      primaryRecords.length + secondaryRecords.length
    omega
  · show (dedupInsert (primaryRecords ++ secondaryRecords)).length =
        primaryRecords.length + secondaryRecords.length ↔ _
    have h := length_dedupInsert_eq_iff (primaryRecords ++ secondaryRecords)
    rwa [List.length_append] at h

/-- Counterexample to C2 as stated: a Primary input that lists the same
record twice against an empty Secondary input has no identity key occurring
in both inputs, yet mergedCount is 1 while primaryCount + secondaryCount is
2, so equality fails without any Primary/Secondary key collision. -/
theorem merge_count_equality_counterexample :
    keysOf ([] : List PlayerRecord) = [] ∧
    (merge_roster [primarySample, primarySample] []).2.mergedCount = 1 ∧
    (merge_roster [primarySample, primarySample] []).2.primaryCount +
      (merge_roster [primarySample, primarySample] []).2.secondaryCount = 2 ∧
    (merge_roster [primarySample, primarySample] []).2.mergedCount ≠
      (merge_roster [primarySample, primarySample] []).2.primaryCount +
        (merge_roster [primarySample, primarySample] []).2.secondaryCount := by
  refine ⟨rfl, ?_, rfl, ?_⟩ <;> decide

/-- Claim C9: re-merging an already merged record set with an empty Secondary
input returns the merged set unchanged, record for record. -/
theorem merge_remerge_identity (primaryRecords secondaryRecords : List PlayerRecord) :
    (merge_roster (merge_roster primaryRecords secondaryRecords).1 []).1 =
      (merge_roster primaryRecords secondaryRecords).1 := by
  show dedupInsert (dedupInsert (primaryRecords ++ secondaryRecords) ++ []) =
    dedupInsert (primaryRecords ++ secondaryRecords)
  rw [List.append_nil]
  exact dedupInsert_of_keys_nodup (dedupInsert_keys_nodup _)

/-- Claim C3: the EntityCatalog holds exactly 32 distinct organizations, and
a full compilation run processes every one of them - the per-organization
results of compile_all_teams line up one-for-one with the catalog codes, for
every choice of source payloads. -/
theorem catalog_32_all_processed :
    ESPN_TEAMS.length = 32 ∧
    (ESPN_TEAMS.map OrgEntry.code).Nodup ∧
    ∀ (fetchPrimary fetchSecondary : OrgEntry → List RawEntry) (t : Nat),
      (compile_all_teams fetchPrimary fetchSecondary t).map Prod.fst =
        ESPN_TEAMS.map OrgEntry.code ∧
      (compile_all_teams fetchPrimary fetchSecondary t).length = 32 := by
  refine ⟨by decide, by decide, ?_⟩
  intro fetchPrimary fetchSecondary t
  constructor
  · simp [compile_all_teams]
  · show (ESPN_TEAMS.map _).length = 32
    rw [List.length_map]
    decide

/-- Claim C4: a fetch makes at most maxRetries attempts (default 3), the wait
after failed attempt n (1-based) is exactly baseDelay * 2 ^ (n-1), and when
every attempt fails the result is the terminal FetchFailure after exactly
maxRetries attempts. -/
theorem fetch_retry_policy {α : Type} (cfg : RetryConfig) (attemptOutcome : Nat → Option α) :
    (fetchWithRetry cfg attemptOutcome).attemptsUsed ≤ cfg.maxRetries ∧
    (fetchWithRetry cfg attemptOutcome).waits =
      (List.range' 0 ((fetchWithRetry cfg attemptOutcome).attemptsUsed - 1)).map
        (fun i => cfg.baseDelayMs * 2 ^ i) ∧
    ((∀ n, attemptOutcome n = none) →
      fetchWithRetry cfg attemptOutcome =
        FetchResult.failure cfg.maxRetries
          ((List.range' 0 (cfg.maxRetries - 1)).map (fun i => cfg.baseDelayMs * 2 ^ i))) ∧
    defaultRetryConfig.maxRetries = 3 := by
  obtain ⟨h1, h2, h3, h4⟩ :=
    fetchAttempts_spec attemptOutcome cfg.baseDelayMs cfg.maxRetries 1 le_rfl
  refine ⟨by simpa using h2, by simpa using h4, ?_, rfl⟩
  intro hfail
  have h := fetchAttempts_all_fail attemptOutcome cfg.baseDelayMs hfail cfg.maxRetries 1 le_rfl
  simpa using h

/-- Witness for C4: with the default configuration and an always-failing
source, the fetch fails terminally after 3 attempts, having waited 1000 then
2000 between attempts. -/
theorem fetch_retry_policy_witness :
    fetchWithRetry defaultRetryConfig (fun _ => (none : Option Nat)) =
      FetchResult.failure 3 [1000, 2000] := by
  have h := (fetch_retry_policy defaultRetryConfig
    (fun _ => (none : Option Nat))).2.2.1 (fun _ => rfl)
  rw [h]
  rfl

/-- Claim C5: the raw fragment John Smith Q, whose trailing word Q is a known
injury token, normalizes to name John Smith with injuryStatus Questionable;
and every fragment with no trailing known injury token becomes the name in
full with injuryStatus defaulting to Active. -/
theorem parse_player_text_injury_split :
    parse_player_text "John Smith Q" = ("John Smith", InjuryStatus.questionable) ∧
    ∀ fragment : String,
      parseInjuryToken ((wordsOf fragment).getLastD "") = none →
      parse_player_text fragment = (fragment, InjuryStatus.active) := by
  constructor
  · decide
  · intro fragment h
    simp only [parse_player_text]
    rw [h]

/-- Witness for C5: the fragment John Smith has no trailing known injury
token and normalizes to itself with status Active. -/
theorem parse_player_text_injury_split_witness :
    parse_player_text "John Smith" = ("John Smith", InjuryStatus.active) :=
  parse_player_text_injury_split.2 "John Smith" (by decide)

lemma mem_foldl_append {β : Type} (g : β → List PlayerRecord) (r : PlayerRecord) :
    ∀ (l : List β) (acc : List PlayerRecord),
      r ∈ List.foldl (fun a org => a ++ g org) acc l →
      r ∈ acc ∨ ∃ org ∈ l, r ∈ g org := by
  intro l
  induction l with
  | nil => intro acc h; exact Or.inl (by simpa using h)
  | cons x l ih =>
    intro acc h
    rw [List.foldl_cons] at h
    rcases ih (acc ++ g x) h with h1 | ⟨org, ho, hr⟩
    · rcases List.mem_append.mp h1 with h2 | h2
      · exact Or.inl h2
      · exact Or.inr ⟨x, List.mem_cons_self x l, h2⟩
    · exact Or.inr ⟨org, List.mem_cons_of_mem x ho, hr⟩

lemma roleGroup_of_mem_run {fetchPrimary fetchSecondary : OrgEntry → List RawEntry}
    {t : Nat} {r : PlayerRecord} (h : r ∈ runRecords fetchPrimary fetchSecondary t) :
    r.roleGroup = position_group r.role := by
  rcases mem_foldl_append
      (fun org => (process_team fetchPrimary fetchSecondary t org).1) r ESPN_TEAMS [] h with
    h0 | ⟨org, -, hr⟩
  · simp at h0
  · have hr1 : r ∈ dedupInsert
        (normalize (fetchPrimary org) org SourceKind.primary t ++
          normalize (fetchSecondary org) org SourceKind.secondary t) := hr
    have hr2 := mem_of_mem_dedupInsert hr1
    rcases List.mem_append.mp hr2 with h3 | h3 <;>
    · obtain ⟨e, -, he⟩ := List.mem_map.mp h3
      rw [← he]
      rfl

/-- Claim C6: roleGroup is a pure function of role across the whole run - any
two records produced by a compilation run that carry the same role string
carry the same roleGroup, and that group is exactly the static lookup of the
role. -/
theorem role_group_purity (fetchPrimary fetchSecondary : OrgEntry → List RawEntry)
    (t : Nat) (r1 r2 : PlayerRecord)
    (h1 : r1 ∈ runRecords fetchPrimary fetchSecondary t)
    (h2 : r2 ∈ runRecords fetchPrimary fetchSecondary t)
    (hrole : r1.role = r2.role) :
    r1.roleGroup = r2.roleGroup ∧ r1.roleGroup = position_group r1.role := by
  have g1 := roleGroup_of_mem_run h1
  have g2 := roleGroup_of_mem_run h2
  exact ⟨by rw [g1, g2, hrole], g1⟩

/-- Sample raw entry used by the run-level witnesses. -/
def sampleRawEntry : RawEntry :=
  { roleLabel := "QB", depthPos := some 1, fragment := "John Smith Q", jersey := none }

/-- The record the run produces for sampleRawEntry under the first catalog
organization. -/
def witnessRecordARI : PlayerRecord :=
  { name := "John Smith"
    organizationCode := "ARI"
    role := "QB"
    roleGroup := RoleGroup.offense
    depthOrder := some "1st"
    injuryStatus := InjuryStatus.questionable
    jerseyNumber := none
    sourceKind := SourceKind.primary
    observedAt := 0 }

/-- The record the run produces for sampleRawEntry under the second catalog
organization. -/
def witnessRecordATL : PlayerRecord :=
  { name := "John Smith"
    organizationCode := "ATL"
    role := "QB"
    roleGroup := RoleGroup.offense
    depthOrder := some "1st"
    injuryStatus := InjuryStatus.questionable
    jerseyNumber := none
    sourceKind := SourceKind.primary
    observedAt := 0 }

/-- Witness for C6: two records of one concrete run sharing the role QB have
the same role group. -/
theorem role_group_purity_witness :
    witnessRecordARI.roleGroup = witnessRecordATL.roleGroup :=
  (role_group_purity (fun _ => [sampleRawEntry]) (fun _ => []) 0
    witnessRecordARI witnessRecordATL (by decide) (by decide) rfl).1

/-- Claim C7: every catalog organization absent from the dataset produces an
error entry naming its code, and organizationsFailed counts exactly the
absent organizations (so a single absent organization gives
organizationsFailed = 1). -/
theorem validator_missing_org (records : List PlayerRecord)
    (expectedTotal tolerance : Nat) (org : OrgEntry)
    (hmem : org ∈ ESPN_TEAMS) (habsent : org_count records org.code = 0) :
    missing_org_error org.code ∈ (validate_data records expectedTotal tolerance).errors ∧
    (validate_data records expectedTotal tolerance).organizationsFailed =
      (missing_orgs records).length ∧
    ((missing_orgs records).length = 1 →
      (validate_data records expectedTotal tolerance).organizationsFailed = 1) := by
  have hm : org ∈ missing_orgs records := by
    simp [missing_orgs, List.mem_filter, hmem, habsent]
  refine ⟨?_, rfl, fun h => h⟩
  show missing_org_error org.code ∈
    ((if records.length = 0 then ["No records collected"] else []) ++
      (missing_orgs records).map (fun o => missing_org_error o.code))
  exact List.mem_append.mpr (Or.inr (List.mem_map.mpr ⟨org, hm, rfl⟩))

/-- Witness for C7: on the empty dataset the first catalog organization is
reported missing by name, and all 32 organizations count as failed. -/
theorem validator_missing_org_witness :
    missing_org_error "ARI" ∈ (validate_data [] 2553 100).errors ∧
    (validate_data [] 2553 100).organizationsFailed = 32 := by
  constructor
  · exact (validator_missing_org [] 2553 100
      { code := "ARI", internalId := "22", displayName := "Arizona Cardinals",
        minExpected := 53, maxExpected := 90 } (by decide) rfl).1
  · decide

/-- Claim C8: the CSV export is the flattened record table sorted by the
(organizationCode, roleGroup, role, name) key - the sorted list is ordered
under the lexicographic key comparison, is a permutation of the input
records, and the export is a pure function of the dataset, so exporting the
same dataset twice yields the same row order. -/
theorem csv_export_sorted_deterministic (records : List PlayerRecord) :
    List.Sorted csvLE (List.insertionSort csvLE records) ∧
    List.Perm (List.insertionSort csvLE records) records ∧
    save_to_csv records = (List.insertionSort csvLE records).map csvRow :=
  ⟨List.sorted_insertionSort csvLE records, List.perm_insertionSort csvLE records, rfl⟩

/-- Claim C10: when the database lookup finds no KPI, updateKPI surfaces an
error whose message is exactly Error updating KPI; more generally every error
updateKPI surfaces is either Error updating KPI or a Validation Error
message, and the internal KPI-not-found error never reaches the caller. -/
theorem updateKPI_error_messages {α κ : Type} (parseResult : Except JsError α)
    (findByIdAndUpdate : α → Except JsError (Option κ)) :
    (∀ v, parseResult = Except.ok v → findByIdAndUpdate v = Except.ok none →
      updateKPI parseResult findByIdAndUpdate =
        Except.error (JsError.error "Error updating KPI")) ∧
    (∀ e, updateKPI parseResult findByIdAndUpdate = Except.error e →
      e = JsError.error "Error updating KPI" ∨
        ∃ info, e = JsError.error ("Validation Error: " ++ info)) ∧
    (∀ e, updateKPI parseResult findByIdAndUpdate = Except.error e →
      e.message ≠ "KPI not found") := by
  refine ⟨?_, ?_, ?_⟩
  · intro v hp hd
    subst hp
    simp [updateKPI, updateKPI_tryBlock, hd]
  · intro e he
    unfold updateKPI at he
    cases htry : updateKPI_tryBlock parseResult findByIdAndUpdate with
    | ok k => rw [htry] at he; simp at he
    | error err =>
      rw [htry] at he
      cases err with
      | zodError info =>
        simp only [Except.error.injEq] at he
        exact Or.inr ⟨info, he.symm⟩
      | error m =>
        simp only [Except.error.injEq] at he
        exact Or.inl he.symm
  · intro e he
    unfold updateKPI at he
    cases htry : updateKPI_tryBlock parseResult findByIdAndUpdate with
    | ok k => rw [htry] at he; simp at he
    | error err =>
      rw [htry] at he
      cases err with
      | zodError info =>
        simp only [Except.error.injEq] at he
        subst he
        intro hcontra
        simp only [JsError.message] at hcontra
        have hlen := congrArg String.length hcontra
        rw [String.length_append] at hlen
        have h18 : ("Validation Error: ").length = 18 := by decide
        have h13 : ("KPI not found").length = 13 := by decide
        rw [h18, h13] at hlen
        omega
      | error m =>
        simp only [Except.error.injEq] at he
        subst he
        intro hcontra
        simp only [JsError.message] at hcontra
        exact absurd hcontra (by decide)

/-- Witness for C10: a successful parse followed by a lookup that finds
nothing makes updateKPI surface exactly the Error updating KPI message. -/
theorem updateKPI_error_messages_witness :
    updateKPI (Except.ok (0 : Nat)) (fun _ => Except.ok (none : Option Nat)) =
      Except.error (JsError.error "Error updating KPI") :=
  (updateKPI_error_messages (Except.ok (0 : Nat))
    (fun _ => Except.ok (none : Option Nat))).1 0 rfl rfl

end NFLRoster
